import Mathlib

/-!
Verification of the multipart upload handler registered as the `storage`
HTTP function in `src/api/storage/_index.js` (the `app.http('storage')`
v4-model handler).

The handler is embedded as a pure function.  External collaborators — the
multipart parser (`multipart.getBoundary`, `multipart.Parse`), the buffer
text decoder (`Buffer.toString`), and the blob-store client (the outcomes
of `containerClient.createIfNotExists` and `blockBlobClient.uploadData`,
and `blockBlobClient.url`) — are passed in as parameters, mirroring the
"trusted black box" treatment the design gives them.  JavaScript string
truthiness (`undefined` and the empty string are falsy) is modelled
explicitly where the source relies on it.
-/

namespace Storage

/-- One parsed multipart part, as produced by `multipart.Parse`: a field
name, an optional filename, and the raw byte payload.  An absent name or
filename is modelled as the empty string, matching JavaScript falsiness
(`!part.filename`, `part.name` truthiness checks in the source). -/
structure Part where
  name : String
  filename : String
  data : List Nat
deriving Repr, DecidableEq

/-- The incoming HTTP request as the handler observes it: the two header
lookups `request.headers.get('content-type')` and
`request.headers.get('Content-Type')`, and the raw body bytes from
`request.arrayBuffer()`. -/
structure Request where
  ctLower : Option String
  ctUpper : Option String
  body : List Nat
deriving Repr, DecidableEq

/-- Ambient environment of one handler run: `process.env.AzureWebJobsStorage`,
the `Values.AzureWebJobsStorage` entry of `local.settings.json` when that
file exists (none when the file or the key is absent), and the three
`new Date().toISOString()` readings the handler takes (for the blob key,
the blob metadata, and the response body, in source order). -/
structure Env where
  envConn : Option String
  localConn : Option String
  nowKey : String
  nowMeta : String
  nowResp : String
deriving Repr, DecidableEq

/-- One call issued to `blockBlobClient.uploadData`: the blob name the
client was obtained for, the bytes, the blob content type, and the
metadata map attached to the blob. -/
structure UploadCall where
  blobName : String
  data : List Nat
  contentType : String
  metadata : List (String × String)
deriving Repr, DecidableEq

/-- The JSON response the handler returns (`status` plus the fields of
`jsonBody`; fields the source omits on a given path stay `none`). -/
structure Response where
  status : Nat
  success : Bool
  error : Option String := none
  details : Option String := none
  missingFields : Option (List String) := none
  message : Option String := none
  fileName : Option String := none
  originalFileName : Option String := none
  url : Option String := none
  metadata : Option (List (String × String)) := none
  uploadedAt : Option String := none
deriving Repr, DecidableEq

/-- JavaScript truthiness of a nullable string: `null`/`undefined` and
`""` are falsy. -/
def truthyOpt : Option String → Bool
  | none => false
  | some s => s != ""

/-- JavaScript `a || b` on nullable strings: yields `a` when `a` is
truthy, otherwise `b`. -/
def jsOr (a b : Option String) : Option String :=
  if truthyOpt a then a else b

/-- Read the string out of a nullable string (used only after a
truthiness check has established it is a non-empty string). -/
def optStr (o : Option String) : String := o.getD ""

/-- Property lookup on the JavaScript-object model: the value at the
first (and, by construction, only) entry with the given key. -/
def objGet : List (String × String) → String → Option String
  | [], _ => none
  | (k', v) :: t, k => if k' = k then some v else objGet t k

/-- Property assignment `obj[k] = v` on the JavaScript-object model:
update the entry in place when the key exists, otherwise append it. -/
def objSet : List (String × String) → String → String → List (String × String)
  | [], k, v => [(k, v)]
  | (k', v') :: t, k, v => if k' = k then (k, v) :: t else (k', v') :: objSet t k v

/-- ASCII lowering of one character, as performed by the regex `i` flag
and `toLowerCase` on the ASCII range. -/
def lowerChar (c : Char) : Char :=
  if 'A' ≤ c ∧ c ≤ 'Z' then Char.ofNat (c.toNat + 32) else c

/-- ASCII lowering of a string. -/
def lowerStr (s : String) : String := String.mk (s.data.map lowerChar)

/-- `/\.(xlsx|xls)$/i.test(filename)`: the filename ends in `.xlsx` or
`.xls`, case-insensitively. -/
def isExcelFile (s : String) : Bool :=
  ".xlsx".data.isSuffixOf (s.data.map lowerChar) || ".xls".data.isSuffixOf (s.data.map lowerChar)

/-- `parts.find(p => p.filename)`: the first part with a truthy filename. -/
def selectFilePart (parts : List Part) : Option Part :=
  parts.find? (fun p => p.filename != "")

/-- One iteration of the fields-collection loop:
`if (!part.filename && part.name) fields[part.name] = part.data.toString()`. -/
def fieldsStep (dec : List Nat → String) (m : List (String × String)) (p : Part) :
    List (String × String) :=
  if p.filename == "" && p.name != "" then objSet m p.name (dec p.data) else m

/-- The `fields` object built by iterating over all parts. -/
def collectFields (dec : List Nat → String) (parts : List Part) : List (String × String) :=
  parts.foldl (fieldsStep dec) []

/-- The `requiredFields` array of the source. -/
def requiredFields : List String :=
  ["company", "business_unit", "location", "time_period", "esg_topic", "esg_metric", "unit"]

/-- The code points `String.prototype.trim` strips, per ECMA-262
TrimString: WhiteSpace — TAB, VT, FF, ZWNBSP (U+FEFF) and every
Space_Separator character (SP, NBSP, U+1680, U+2000–U+200A, U+202F,
U+205F, U+3000) — together with LineTerminator (LF, CR, LS U+2028,
PS U+2029). -/
def isJsWhitespace (c : Char) : Bool :=
  c.toNat == 0x09 || c.toNat == 0x0a || c.toNat == 0x0b || c.toNat == 0x0c ||
  c.toNat == 0x0d || c.toNat == 0x20 || c.toNat == 0xa0 || c.toNat == 0x1680 ||
  (0x2000 ≤ c.toNat && c.toNat ≤ 0x200a) || c.toNat == 0x2028 || c.toNat == 0x2029 ||
  c.toNat == 0x202f || c.toNat == 0x205f || c.toNat == 0x3000 || c.toNat == 0xfeff

/-- `String.prototype.trim`: strip leading and trailing ECMAScript
whitespace. -/
def trimStr (s : String) : String :=
  String.mk (((s.data.dropWhile isJsWhitespace).reverse.dropWhile isJsWhitespace).reverse)

/-- `!fields[field] || fields[field].trim() === ''`: the field is absent,
empty, or whitespace-only. -/
def isBlankField (fields : List (String × String)) (f : String) : Bool :=
  match objGet fields f with
  | none => true
  | some v => v == "" || trimStr v == ""

/-- One character of `.replace(/[:.]/g, '-')`. -/
def sanitizeChar (c : Char) : Char :=
  if c = ':' || c = '.' then '-' else c

/-- `new Date().toISOString().replace(/[:.]/g, '-')` applied to a given
ISO string: every colon and dot becomes a hyphen. -/
def sanitizeTimestamp (s : String) : String :=
  String.mk (s.data.map sanitizeChar)

/-- `split('.')` over the character list: cut at every dot, keeping empty
segments, with the text accumulated so far in `acc` (reversed). -/
def splitDots : List Char → List Char → List (List Char)
  | [], acc => [acc.reverse]
  | c :: cs, acc => if c = '.' then acc.reverse :: splitDots cs [] else splitDots cs (c :: acc)

/-- `filename.split('.').pop()`: the segment after the last dot. -/
def fileExtOf (filename : String) : String :=
  String.mk ((splitDots filename.data []).getLastD [])

/-- The `contentTypeMap` lookup with its `'application/octet-stream'`
default. -/
def excelContentType (ext : String) : String :=
  if lowerStr ext = "xlsx" then
    "application/vnd.openxmlformats-officedocument.spreadsheetml.sheet"
  else if lowerStr ext = "xls" then "application/vnd.ms-excel"
  else "application/octet-stream"

/-- The generated blob key:
`` `${fields.company}_${timestamp}.${fileExtension}` `` with `timestamp`
the sanitized ISO reading. -/
def uniqueFilename (company isoNow ext : String) : String :=
  company ++ "_" ++ sanitizeTimestamp isoNow ++ "." ++ ext

/-- The metadata object attached to the blob:
`{ originalFilename, uploadedAt, ...fields }` (object-literal spread,
later keys overriding earlier ones). -/
def uploadMetadata (origName nowMeta : String) (fields : List (String × String)) :
    List (String × String) :=
  fields.foldl (fun m kv => objSet m kv.1 kv.2)
    (objSet (objSet [] "originalFilename" origName) "uploadedAt" nowMeta)

/-- The external collaborators of one handler run: the boundary
extractor, the multipart parser (throwing modelled as `Except.error` with
the thrown message), the buffer-to-text decoder, the outcomes of the two
blob-store calls, and the blob URL map. -/
structure Collab where
  gb : String → String
  parseParts : List Nat → String → Except String (List Part)
  dec : List Nat → String
  createRes : Except String Unit
  uploadRes : Except String Unit
  blobUrl : String → String

/-- The `storage` handler of `src/api/storage/_index.js`, returning the
HTTP response together with the list of `uploadData` calls issued
(issued, whether or not they succeeded). -/
def handler (C : Collab) (req : Request) (env : Env) : Response × List UploadCall :=
  let contentType := jsOr req.ctLower req.ctUpper
  if !truthyOpt contentType then
    ({ status := 400, success := false, error := some "Missing content-type header" }, [])
  else
    let boundary := C.gb (optStr contentType)
    if boundary == "" then
      ({ status := 400, success := false,
         error := some "Malformed content-type header: boundary not found" }, [])
    else
      match C.parseParts req.body boundary with
      | .error msg =>
        ({ status := 400, success := false, error := some "Failed to parse multipart data",
           details := some msg }, [])
      | .ok parts =>
        match selectFilePart parts with
        | none => ({ status := 400, success := false, error := some "No file uploaded" }, [])
        | some filePart =>
          if !isExcelFile filePart.filename then
            ({ status := 400, success := false,
               error := some "Invalid file type. Only .xlsx and .xls files are allowed." }, [])
          else
            let fields := collectFields C.dec parts
            let missing := requiredFields.filter (isBlankField fields)
            if !missing.isEmpty then
              ({ status := 400, success := false, error := some "Missing required fields",
                 missingFields := some missing }, [])
            else
              let conn := if truthyOpt env.envConn then env.envConn else env.localConn
              if !truthyOpt conn then
                ({ status := 500, success := false,
                   error := some "Azure Storage configuration not found" }, [])
              else
                match C.createRes with
                | .error msg =>
                  ({ status := 500, success := false, error := some "Internal server error",
                     details := some msg }, [])
                | .ok _ =>
                  let ext := fileExtOf filePart.filename
                  let unique := uniqueFilename (optStr (objGet fields "company")) env.nowKey ext
                  let call : UploadCall :=
                    { blobName := unique, data := filePart.data,
                      contentType := excelContentType ext,
                      metadata := uploadMetadata filePart.filename env.nowMeta fields }
                  match C.uploadRes with
                  | .error msg =>
                    ({ status := 500, success := false, error := some "Internal server error",
                       details := some msg }, [call])
                  | .ok _ =>
                    ({ status := 200, success := true,
                       message := some "File uploaded successfully",
                       fileName := some unique,
                       originalFileName := some filePart.filename,
                       url := some (C.blobUrl unique),
                       metadata := some fields,
                       uploadedAt := some env.nowResp }, [call])

/-- One slot of the `toISOString` output shape: a literal character or a
decimal digit. -/
def charMatches : Option Char → Char → Bool
  | none, c => c.isDigit
  | some l, c => c = l

/-- Match a character list against a slot pattern, position by position. -/
def matchesShape : List (Option Char) → List Char → Bool
  | [], [] => true
  | p :: ps, c :: cs => charMatches p c && matchesShape ps cs
  | _, _ => false

/-- The fixed 24-character shape of `Date.prototype.toISOString` output:
`YYYY-MM-DDTHH:mm:ss.sssZ`. -/
def isoShape : List (Option Char) :=
  [none, none, none, none, some '-', none, none, some '-', none, none,
   some 'T', none, none, some ':', none, none, some ':', none, none,
   some '.', none, none, none, some 'Z']

/-- A string is a well-formed `toISOString` reading. -/
def isIsoTimestamp (s : String) : Bool :=
  matchesShape isoShape s.data

/-- The predicate picking out the non-file parts bound under key `k` by
the fields-collection loop. -/
def bindsKey (k : String) (p : Part) : Bool :=
  p.filename == "" && p.name == k
/-- The `uploadData` call the handler issues once it has passed every
validation: the generated key, the file part's bytes, the mapped content
type, and the blob metadata. -/
def uploadCallOf (C : Collab) (env : Env) (parts : List Part) (fp : Part) : UploadCall :=
  { blobName := uniqueFilename (optStr (objGet (collectFields C.dec parts) "company"))
      env.nowKey (fileExtOf fp.filename),
    data := fp.data,
    contentType := excelContentType (fileExtOf fp.filename),
    metadata := uploadMetadata fp.filename env.nowMeta (collectFields C.dec parts) }
/-- The 200 response body of the success branch. -/
def successResponse (C : Collab) (env : Env) (parts : List Part) (fp : Part) : Response :=
  { status := 200, success := true,
    message := some "File uploaded successfully",
    fileName := some (uploadCallOf C env parts fp).blobName,
    originalFileName := some fp.filename,
    url := some (C.blobUrl (uploadCallOf C env parts fp).blobName),
    metadata := some (collectFields C.dec parts),
    uploadedAt := some env.nowResp }
/-- Concrete byte decoder used by the witness runs: bytes as character
codes. -/
def wDec : List Nat → String := fun bs => String.mk (bs.map Char.ofNat)

/-- A concrete non-file form field part. -/
def wField (n v : String) : Part := ⟨n, "", v.data.map Char.toNat⟩

/-- A concrete spreadsheet file part. -/
def wFile : Part := ⟨"file", "report.xlsx", [80, 75, 3, 4]⟩

/-- A fully valid parsed part list: the seven required fields plus one
`.xlsx` file part. -/
def wParts : List Part :=
  [wField "company" "Acme", wField "business_unit" "BU1", wField "location" "Berlin",
   wField "time_period" "2024", wField "esg_topic" "Energy", wField "esg_metric" "kWh-used",
   wField "unit" "kWh", wFile]

/-- Baseline concrete collaborators for the witness runs. -/
def wCollab : Collab :=
  { gb := fun _ => "----WebKitFormBoundary",
    parseParts := fun _ _ => Except.ok wParts,
    dec := wDec,
    createRes := Except.ok (),
    uploadRes := Except.ok (),
    blobUrl := fun n => "https://account.blob.core.windows.net/upload/" ++ n }

/-- A concrete request with a multipart content-type header. -/
def wReq : Request :=
  ⟨some "multipart/form-data; boundary=----WebKitFormBoundary", none, [0, 1, 2]⟩

/-- A concrete environment with the connection string present. -/
def wEnv : Env :=
  ⟨some "UseDevelopmentStorage=true", none,
   "2025-06-26T22:09:19.123Z", "2025-06-26T22:09:19.456Z", "2025-06-26T22:09:19.789Z"⟩
/-- Concrete collaborators whose boundary extractor finds nothing. -/
def w7Collab : Collab := { wCollab with gb := fun _ => "" }
/-- A parsed part list with form fields only and no file part. -/
def w6Parts : List Part := [wField "company" "Acme", wField "unit" "kWh"]
/-- Collaborators parsing to the file-less part list. -/
def w6Collab : Collab := { wCollab with parseParts := fun _ _ => Except.ok w6Parts }
/-- A parsed part list whose file part is a `.csv`. -/
def w3Parts : List Part := [wField "company" "Acme", ⟨"file", "data.csv", [1, 2, 3]⟩]
/-- Collaborators parsing to the `.csv` part list. -/
def w3Collab : Collab := { wCollab with parseParts := fun _ _ => Except.ok w3Parts }
/-- A parsed part list in which `location` is a lone no-break space
(blank after `trim`) and `unit` is absent. -/
def w2Parts : List Part :=
  [wField "company" "Acme", wField "business_unit" "BU1", wField "location" "\u00A0",
   wField "time_period" "2024", wField "esg_topic" "Energy", wField "esg_metric" "kWh-used",
   wFile]
/-- Collaborators parsing to the deficient part list. -/
def w2Collab : Collab := { wCollab with parseParts := fun _ _ => Except.ok w2Parts }
/-- An environment with the credential absent everywhere. -/
def w9Env : Env :=
  ⟨none, some "", "2025-06-26T22:09:19.123Z", "2025-06-26T22:09:19.456Z",
   "2025-06-26T22:09:19.789Z"⟩
/-- Collaborators whose blob client throws during upload. -/
def w5Collab : Collab := { wCollab with uploadRes := Except.error "Network failure" }
/-- An environment identical to `wEnv` except for a later key reading. -/
def w4Env : Env := { wEnv with nowKey := "2025-06-26T22:09:20.000Z" }
/-- A part list with a duplicate field name, a nameless part, and a file
part sharing the duplicated name. -/
def w10Parts : List Part :=
  [wField "k" "first", ⟨"", "", [120]⟩, ⟨"k", "sheet.xlsx", [9]⟩, wField "k" "second"]

/-- Reading a key just assigned yields the assigned value. -/
lemma objGet_objSet_self (m : List (String × String)) (k v : String) :
    objGet (objSet m k v) k = some v := by
  induction m with
  | nil => simp [objSet, objGet]
  | cons p t ih =>
    obtain ⟨k', v'⟩ := p
    by_cases h : k' = k
    · simp [objSet, h, objGet]
    · simp [objSet, h, objGet, ih]

/-- Assigning one key leaves every other key unchanged. -/
lemma objGet_objSet_ne (m : List (String × String)) (k' k v : String) (h : k' ≠ k) :
    objGet (objSet m k' v) k = objGet m k := by
  induction m with
  | nil => simp [objSet, objGet, h]
  | cons p t ih =>
    obtain ⟨k₀, v₀⟩ := p
    by_cases h₀ : k₀ = k'
    · subst h₀
      simp [objSet, objGet, h]
    · by_cases h₁ : k₀ = k
      · subst h₁
        simp [objSet, objGet, h₀]
      · simp [objSet, h₀, objGet, h₁, ih]

/-- Generalized fields-collection invariant: after folding the loop body
over `parts` starting from `acc`, the value at a non-empty key `k` is the
decoded payload of the last part binding `k`, falling back to `acc`. -/
lemma objGet_foldl_fieldsStep (dec : List Nat → String) (k : String) (hk : k ≠ "") :
    ∀ (parts : List Part) (acc : List (String × String)),
      objGet (parts.foldl (fieldsStep dec) acc) k =
        ((parts.reverse.find? (bindsKey k)).map fun p => dec p.data).or (objGet acc k) := by
  intro parts
  induction parts with
  | nil => intro acc; simp
  | cons p t ih =>
    intro acc
    rw [List.foldl_cons, ih (fieldsStep dec acc p)]
    rw [List.reverse_cons, List.find?_append]
    cases hfind : t.reverse.find? (bindsKey k) with
    | some q => simp
    | none =>
      by_cases hbind : bindsKey k p = true
      · have hpf : p.filename = "" := by
          have := ((Bool.and_eq_true _ _).mp (by rw [bindsKey] at hbind; exact hbind)).1
          exact eq_of_beq this
        have hpn : p.name = k := by
          have := ((Bool.and_eq_true _ _).mp (by rw [bindsKey] at hbind; exact hbind)).2
          exact eq_of_beq this
        have hname : p.name ≠ "" := by rw [hpn]; exact hk
        simp only [Option.none_or, List.find?_cons, hbind, Option.map_some, fieldsStep,
          hpf, hname, bne_self_eq_false, beq_self_eq_true, Bool.true_and, bne_iff_ne,
          ne_eq, not_false_eq_true, if_true, if_pos]
        rw [hpn, objGet_objSet_self]
        simp
      · have hbind' : bindsKey k p = false := by
          cases h : bindsKey k p
          · rfl
          · exact absurd h hbind
        simp only [Option.none_or, List.find?_cons, hbind', List.find?_nil,
          Option.map_none, Option.none_or]
        rw [fieldsStep]
        by_cases hcond : (p.filename == "" && p.name != "") = true
        · have hpf : p.filename == "" := ((Bool.and_eq_true _ _).mp hcond).1
          have hne : p.name ≠ k := by
            intro hEq
            rw [bindsKey, hpf, Bool.true_and, hEq] at hbind'
            simp at hbind'
          rw [if_pos hcond, objGet_objSet_ne _ _ _ _ hne]
        · rw [if_neg hcond]

/-- The `fields` object at a non-empty key `k` holds the decoded payload
of the last non-file part named `k` (none when no such part exists). -/
lemma objGet_collectFields (dec : List Nat → String) (parts : List Part) (k : String)
    (hk : k ≠ "") :
    objGet (collectFields dec parts) k =
      (parts.reverse.find? (bindsKey k)).map fun p => dec p.data := by
  rw [collectFields, objGet_foldl_fieldsStep dec k hk parts []]
  simp [objGet]

/-- The fields-collection loop never binds the empty key. -/
lemma objGet_collectFields_empty (dec : List Nat → String) (parts : List Part) :
    objGet (collectFields dec parts) "" = none := by
  suffices h : ∀ (ps : List Part) (acc : List (String × String)),
      objGet acc "" = none → objGet (ps.foldl (fieldsStep dec) acc) "" = none by
    exact h parts [] rfl
  intro ps
  induction ps with
  | nil => intro acc hacc; simpa using hacc
  | cons p t ih =>
    intro acc hacc
    rw [List.foldl_cons]
    refine ih _ ?_
    rw [fieldsStep]
    by_cases hcond : (p.filename == "" && p.name != "") = true
    · have hne : p.name ≠ "" := by
        have := ((Bool.and_eq_true _ _).mp hcond).2
        simpa using this
      rw [if_pos hcond, objGet_objSet_ne _ _ _ _ hne, hacc]
    · rw [if_neg hcond, hacc]

/-- `parts.find(p => p.filename)` returns the first part carrying a
truthy filename. -/
lemma selectFilePart_append (pre post : List Part) (fp : Part)
    (hpre : ∀ p ∈ pre, p.filename = "") (hfp : fp.filename ≠ "") :
    selectFilePart (pre ++ fp :: post) = some fp := by
  induction pre with
  | nil => simp [selectFilePart, List.find?_cons, hfp]
  | cons a t ih =>
    have ha : a.filename = "" := hpre a (List.mem_cons_self a t)
    have ht : ∀ p ∈ t, p.filename = "" := fun p hp => hpre p (List.mem_cons_of_mem a hp)
    simpa [selectFilePart, List.find?_cons, ha] using ih ht

/-- A digit is unchanged by the `[:.] → '-'` replacement. -/
lemma sanitizeChar_digit (c : Char) (h : c.isDigit = true) : sanitizeChar c = c := by
  rw [sanitizeChar]
  by_cases h1 : c = ':'
  · subst h1; exact absurd h (by decide)
  · by_cases h2 : c = '.'
    · subst h2; exact absurd h (by decide)
    · simp [h1, h2]

/-- Two character lists matching the same shape and agreeing after the
`[:.] → '-'` replacement are equal. -/
lemma matchesShape_inj (ps : List (Option Char)) :
    ∀ cs1 cs2, matchesShape ps cs1 = true → matchesShape ps cs2 = true →
      cs1.map sanitizeChar = cs2.map sanitizeChar → cs1 = cs2 := by
  induction ps with
  | nil =>
    intro cs1 cs2 h1 h2 _
    cases cs1 with
    | nil =>
      cases cs2 with
      | nil => rfl
      | cons c cs => simp [matchesShape] at h2
    | cons c cs => simp [matchesShape] at h1
  | cons p ps ih =>
    intro cs1 cs2 h1 h2 hmap
    cases cs1 with
    | nil => simp [matchesShape] at h1
    | cons c1 t1 =>
      cases cs2 with
      | nil => simp [matchesShape] at h2
      | cons c2 t2 =>
        rw [matchesShape, Bool.and_eq_true] at h1 h2
        simp only [List.map_cons, List.cons.injEq] at hmap
        have hc : c1 = c2 := by
          cases p with
          | some l =>
            have e1 : c1 = l := by simpa [charMatches] using h1.1
            have e2 : c2 = l := by simpa [charMatches] using h2.1
            rw [e1, e2]
          | none =>
            have d1 : c1.isDigit = true := by simpa [charMatches] using h1.1
            have d2 : c2.isDigit = true := by simpa [charMatches] using h2.1
            have hm := hmap.1
            rwa [sanitizeChar_digit c1 d1, sanitizeChar_digit c2 d2] at hm
        have ht := ih t1 t2 h1.2 h2.2 hmap.2
        rw [hc, ht]

/-- Distinct ISO readings stay distinct after the `[:.] → '-'`
replacement. -/
lemma sanitizeTimestamp_inj (t1 t2 : String) (h1 : isIsoTimestamp t1 = true)
    (h2 : isIsoTimestamp t2 = true) (h : sanitizeTimestamp t1 = sanitizeTimestamp t2) :
    t1 = t2 := by
  rw [isIsoTimestamp] at h1 h2
  have hd : t1.data.map sanitizeChar = t2.data.map sanitizeChar := by
    have hdata := congrArg String.data h
    simpa [sanitizeTimestamp] using hdata
  exact String.ext (matchesShape_inj isoShape t1.data t2.data h1 h2 hd)

/-- With the company and extension fixed, the generated blob key
determines the ISO reading it was built from. -/
lemma uniqueFilename_inj (c ext t1 t2 : String) (h1 : isIsoTimestamp t1 = true)
    (h2 : isIsoTimestamp t2 = true)
    (h : uniqueFilename c t1 ext = uniqueFilename c t2 ext) : t1 = t2 := by
  apply sanitizeTimestamp_inj t1 t2 h1 h2
  rw [uniqueFilename, uniqueFilename] at h
  have hd := congrArg String.data h
  simp only [String.data_append] at hd
  exact String.ext (List.append_cancel_left (List.append_cancel_right
    (List.append_cancel_right hd)))

/-- Once every validation has passed, the handler issues the upload call
and returns 200 or 500 according to the upload outcome. -/
lemma handler_reaches_upload (C : Collab) (req : Request) (env : Env)
    (parts : List Part) (fp : Part)
    (hct : truthyOpt (jsOr req.ctLower req.ctUpper) = true)
    (hb : C.gb (optStr (jsOr req.ctLower req.ctUpper)) ≠ "")
    (hp : C.parseParts req.body (C.gb (optStr (jsOr req.ctLower req.ctUpper))) =
      Except.ok parts)
    (hf : selectFilePart parts = some fp)
    (hx : isExcelFile fp.filename = true)
    (hm : requiredFields.filter (isBlankField (collectFields C.dec parts)) = [])
    (hcn : truthyOpt (if truthyOpt env.envConn then env.envConn else env.localConn) = true)
    (hcr : C.createRes = Except.ok ()) :
    handler C req env =
      (match C.uploadRes with
       | .error msg =>
         ({ status := 500, success := false, error := some "Internal server error",
            details := some msg }, [uploadCallOf C env parts fp])
       | .ok _ => (successResponse C env parts fp, [uploadCallOf C env parts fp])) := by
  have hb' : (C.gb (optStr (jsOr req.ctLower req.ctUpper)) == "") = false := beq_false_of_ne hb
  cases hu : C.uploadRes with
  | error msg =>
    simp [handler, uploadCallOf, hct, hb', hp, hf, hx, hm, hcn, hcr, hu]
  | ok u =>
    cases u
    simp [handler, uploadCallOf, successResponse, hct, hb', hp, hf, hx, hm, hcn, hcr, hu]

/-- C8: when neither `content-type` nor `Content-Type` is present, the
handler answers 400 "Missing content-type header" with no upload call;
the result is the same for every collaborator, environment, and body, so
no later pipeline step influences it. -/
theorem c8_missing_content_type (C : Collab) (req : Request) (env : Env)
    (hl : req.ctLower = none) (hu : req.ctUpper = none) :
    handler C req env =
      ({ status := 400, success := false, error := some "Missing content-type header" }, []) := by
  simp [handler, jsOr, truthyOpt, hl, hu]

/-- Witness for C8: a concrete request with no content-type headers. -/
theorem c8_missing_content_type_witness :
    handler wCollab ⟨none, none, [7, 7]⟩ wEnv =
      ({ status := 400, success := false, error := some "Missing content-type header" }, []) :=
  c8_missing_content_type wCollab ⟨none, none, [7, 7]⟩ wEnv rfl rfl

/-- C7: when the content-type header is present but no boundary token can
be extracted from it (the extractor returns the empty string), the
handler answers 400 "Malformed content-type header: boundary not found"
with no upload call; the result holds for every body and every parser
behaviour, so the body is neither read into the outcome nor parsed. -/
theorem c7_boundary_not_found (C : Collab) (req : Request) (env : Env)
    (hct : truthyOpt (jsOr req.ctLower req.ctUpper) = true)
    (hb : C.gb (optStr (jsOr req.ctLower req.ctUpper)) = "") :
    handler C req env =
      ({ status := 400, success := false,
         error := some "Malformed content-type header: boundary not found" }, []) := by
  simp [handler, hct, hb]

/-- Witness for C7: a concrete content-type without a boundary. -/
theorem c7_boundary_not_found_witness :
    handler w7Collab ⟨some "text/plain", none, [1]⟩ wEnv =
      ({ status := 400, success := false,
         error := some "Malformed content-type header: boundary not found" }, []) :=
  c7_boundary_not_found w7Collab ⟨some "text/plain", none, [1]⟩ wEnv rfl rfl

/-- C6: for a parsed body in which no part carries a (truthy) filename,
the handler answers 400 "No file uploaded" with no upload call; and when
the part list splits as `pre ++ fp :: post` with every part of `pre`
filename-less and `fp` carrying a filename, the handler's file selection
picks `fp` — the first part with a filename, in parsed order. -/
theorem c6_no_file_or_first_selected (C : Collab) (req : Request) (env : Env)
    (parts : List Part)
    (hct : truthyOpt (jsOr req.ctLower req.ctUpper) = true)
    (hb : C.gb (optStr (jsOr req.ctLower req.ctUpper)) ≠ "")
    (hp : C.parseParts req.body (C.gb (optStr (jsOr req.ctLower req.ctUpper))) =
      Except.ok parts) :
    ((∀ p ∈ parts, p.filename = "") →
      handler C req env =
        ({ status := 400, success := false, error := some "No file uploaded" }, [])) ∧
    (∀ (pre post : List Part) (fp : Part), parts = pre ++ fp :: post →
      (∀ p ∈ pre, p.filename = "") → fp.filename ≠ "" →
      selectFilePart parts = some fp) := by
  constructor
  · intro hnone
    have hsel : selectFilePart parts = none := by
      rw [selectFilePart, List.find?_eq_none]
      intro p hpmem
      simp [hnone p hpmem]
    have hb' : (C.gb (optStr (jsOr req.ctLower req.ctUpper)) == "") = false := beq_false_of_ne hb
    simp [handler, hct, hb', hp, hsel]
  · intro pre post fp hsplit hpre hfp
    rw [hsplit]
    exact selectFilePart_append pre post fp hpre hfp

/-- Witness for C6: the file-less body yields the 400, and on the valid
body the first (only) filename-carrying part is selected. -/
theorem c6_no_file_or_first_selected_witness :
    handler w6Collab wReq wEnv =
      ({ status := 400, success := false, error := some "No file uploaded" }, []) ∧
    selectFilePart wParts = some wFile := by
  refine ⟨(c6_no_file_or_first_selected w6Collab wReq wEnv w6Parts rfl (by decide) rfl).1
    (by decide), ?_⟩
  exact (c6_no_file_or_first_selected wCollab wReq wEnv wParts rfl (by decide) rfl).2
    [wField "company" "Acme", wField "business_unit" "BU1", wField "location" "Berlin",
     wField "time_period" "2024", wField "esg_topic" "Energy", wField "esg_metric" "kWh-used",
     wField "unit" "kWh"] [] wFile rfl (by decide) (by decide)

/-- C3: when the selected file part's filename does not end in `.xlsx` or
`.xls` (case-insensitively), the handler answers 400 with the
invalid-file-type error and no upload call occurs. -/
theorem c3_invalid_file_type (C : Collab) (req : Request) (env : Env)
    (parts : List Part) (fp : Part)
    (hct : truthyOpt (jsOr req.ctLower req.ctUpper) = true)
    (hb : C.gb (optStr (jsOr req.ctLower req.ctUpper)) ≠ "")
    (hp : C.parseParts req.body (C.gb (optStr (jsOr req.ctLower req.ctUpper))) =
      Except.ok parts)
    (hf : selectFilePart parts = some fp)
    (hx : isExcelFile fp.filename = false) :
    handler C req env =
      ({ status := 400, success := false,
         error := some "Invalid file type. Only .xlsx and .xls files are allowed." }, []) := by
  have hb' : (C.gb (optStr (jsOr req.ctLower req.ctUpper)) == "") = false := beq_false_of_ne hb
  simp [handler, hct, hb', hp, hf, hx]

/-- Witness for C3: a `.csv` upload is rejected with no upload call. -/
theorem c3_invalid_file_type_witness :
    handler w3Collab wReq wEnv =
      ({ status := 400, success := false,
         error := some "Invalid file type. Only .xlsx and .xls files are allowed." }, []) :=
  c3_invalid_file_type w3Collab wReq wEnv w3Parts ⟨"file", "data.csv", [1, 2, 3]⟩
    rfl (by decide) rfl (by decide) (by decide)

/-- C2: when the parsed request carries a valid file part but at least
one of the seven required metadata keys is absent or blank, the handler
answers 400 with `success: false` and `missingFields` equal to the
filtered required-field list, no upload call occurs, and membership in
that list holds exactly for the required keys that are missing or blank. -/
theorem c2_missing_required_fields (C : Collab) (req : Request) (env : Env)
    (parts : List Part) (fp : Part)
    (hct : truthyOpt (jsOr req.ctLower req.ctUpper) = true)
    (hb : C.gb (optStr (jsOr req.ctLower req.ctUpper)) ≠ "")
    (hp : C.parseParts req.body (C.gb (optStr (jsOr req.ctLower req.ctUpper))) =
      Except.ok parts)
    (hf : selectFilePart parts = some fp)
    (hx : isExcelFile fp.filename = true)
    (hmiss : ∃ f ∈ requiredFields, isBlankField (collectFields C.dec parts) f = true) :
    handler C req env =
      ({ status := 400, success := false, error := some "Missing required fields",
         missingFields :=
           some (requiredFields.filter (isBlankField (collectFields C.dec parts))) }, []) ∧
    ∀ f, f ∈ requiredFields.filter (isBlankField (collectFields C.dec parts)) ↔
      (f ∈ requiredFields ∧ isBlankField (collectFields C.dec parts) f = true) := by
  constructor
  · obtain ⟨f, hfr, hbl⟩ := hmiss
    have hne : requiredFields.filter (isBlankField (collectFields C.dec parts)) ≠ [] := by
      intro h0
      have hmem : f ∈ requiredFields.filter (isBlankField (collectFields C.dec parts)) :=
        List.mem_filter.mpr ⟨hfr, hbl⟩
      rw [h0] at hmem
      exact absurd hmem (List.not_mem_nil f)
    have hm' : (requiredFields.filter (isBlankField (collectFields C.dec parts))).isEmpty
        = false := List.isEmpty_eq_false.mpr hne
    have hb' : (C.gb (optStr (jsOr req.ctLower req.ctUpper)) == "") = false := beq_false_of_ne hb
    simp [handler, hct, hb', hp, hf, hx, hm']
  · intro f
    simp [List.mem_filter]

/-- Witness for C2: the blank `location` and the missing `unit` are
listed, in required-field order, and no upload call occurs. -/
theorem c2_missing_required_fields_witness :
    handler w2Collab wReq wEnv =
      ({ status := 400, success := false, error := some "Missing required fields",
         missingFields := some ["location", "unit"] }, []) ∧
    "unit" ∈ requiredFields.filter (isBlankField (collectFields w2Collab.dec w2Parts)) := by
  have h := c2_missing_required_fields w2Collab wReq wEnv w2Parts wFile
    rfl (by decide) rfl (by decide) (by decide) ⟨"unit", by decide, by decide⟩
  refine ⟨h.1.trans (by decide), ?_⟩
  exact (h.2 "unit").mpr ⟨by decide, by decide⟩

/-- C9: when every client-side validation passes but the storage
connection credential is truthy in neither the process environment nor
the local settings fallback, the handler answers 500 with the
configuration-not-found error and no upload is attempted. -/
theorem c9_storage_config_not_found (C : Collab) (req : Request) (env : Env)
    (parts : List Part) (fp : Part)
    (hct : truthyOpt (jsOr req.ctLower req.ctUpper) = true)
    (hb : C.gb (optStr (jsOr req.ctLower req.ctUpper)) ≠ "")
    (hp : C.parseParts req.body (C.gb (optStr (jsOr req.ctLower req.ctUpper))) =
      Except.ok parts)
    (hf : selectFilePart parts = some fp)
    (hx : isExcelFile fp.filename = true)
    (hm : requiredFields.filter (isBlankField (collectFields C.dec parts)) = [])
    (henv : truthyOpt env.envConn = false)
    (hloc : truthyOpt env.localConn = false) :
    handler C req env =
      ({ status := 500, success := false,
         error := some "Azure Storage configuration not found" }, []) := by
  have hb' : (C.gb (optStr (jsOr req.ctLower req.ctUpper)) == "") = false := beq_false_of_ne hb
  have hm' : (requiredFields.filter (isBlankField (collectFields C.dec parts))).isEmpty
      = true := by rw [hm]; rfl
  simp [handler, hct, hb', hp, hf, hx, hm', henv, hloc]

/-- Witness for C9: an otherwise-valid run with no credential anywhere. -/
theorem c9_storage_config_not_found_witness :
    handler wCollab wReq w9Env =
      ({ status := 500, success := false,
         error := some "Azure Storage configuration not found" }, []) :=
  c9_storage_config_not_found wCollab wReq w9Env wParts wFile
    rfl (by decide) rfl (by decide) (by decide) (by decide) rfl rfl

/-- C5: when every validation passes and the container exists but the
blob client throws during `uploadData`, the handler answers 500 with
`success: false` and the thrown message in `details`. -/
theorem c5_upload_error_details (C : Collab) (req : Request) (env : Env)
    (parts : List Part) (fp : Part) (msg : String)
    (hct : truthyOpt (jsOr req.ctLower req.ctUpper) = true)
    (hb : C.gb (optStr (jsOr req.ctLower req.ctUpper)) ≠ "")
    (hp : C.parseParts req.body (C.gb (optStr (jsOr req.ctLower req.ctUpper))) =
      Except.ok parts)
    (hf : selectFilePart parts = some fp)
    (hx : isExcelFile fp.filename = true)
    (hm : requiredFields.filter (isBlankField (collectFields C.dec parts)) = [])
    (hcn : truthyOpt (if truthyOpt env.envConn then env.envConn else env.localConn) = true)
    (hcr : C.createRes = Except.ok ())
    (hu : C.uploadRes = Except.error msg) :
    (handler C req env).1 =
      { status := 500, success := false, error := some "Internal server error",
        details := some msg } := by
  rw [handler_reaches_upload C req env parts fp hct hb hp hf hx hm hcn hcr, hu]

/-- Witness for C5: the thrown message surfaces in `details`. -/
theorem c5_upload_error_details_witness :
    (handler w5Collab wReq wEnv).1 =
      { status := 500, success := false, error := some "Internal server error",
        details := some "Network failure" } :=
  c5_upload_error_details w5Collab wReq wEnv wParts wFile "Network failure"
    rfl (by decide) rfl (by decide) (by decide) (by decide) rfl rfl rfl

/-- C1: for a well-formed request whose file part has an accepted
spreadsheet extension and whose seven required fields are present and
non-blank (field names pairwise distinct), the handler issues exactly one
upload call carrying the file part's bytes, and returns 200 with
`success: true` and a metadata object holding, for every submitted form
field, exactly the submitted name bound to the decoded submitted value. -/
theorem c1_valid_upload_roundtrip (C : Collab) (req : Request) (env : Env)
    (parts : List Part) (fp : Part)
    (hct : truthyOpt (jsOr req.ctLower req.ctUpper) = true)
    (hb : C.gb (optStr (jsOr req.ctLower req.ctUpper)) ≠ "")
    (hp : C.parseParts req.body (C.gb (optStr (jsOr req.ctLower req.ctUpper))) =
      Except.ok parts)
    (hf : selectFilePart parts = some fp)
    (hx : isExcelFile fp.filename = true)
    (hm : requiredFields.filter (isBlankField (collectFields C.dec parts)) = [])
    (hcn : truthyOpt (if truthyOpt env.envConn then env.envConn else env.localConn) = true)
    (hcr : C.createRes = Except.ok ())
    (hu : C.uploadRes = Except.ok ())
    (hnd : ((parts.filter (fun r => r.filename == "" && r.name != "")).map
      (fun r => r.name)).Nodup) :
    handler C req env = (successResponse C env parts fp, [uploadCallOf C env parts fp]) ∧
    (uploadCallOf C env parts fp).data = fp.data ∧
    (successResponse C env parts fp).status = 200 ∧
    (successResponse C env parts fp).success = true ∧
    (successResponse C env parts fp).metadata = some (collectFields C.dec parts) ∧
    ∀ p ∈ parts, p.filename = "" → p.name ≠ "" →
      objGet (collectFields C.dec parts) p.name = some (C.dec p.data) := by
  refine ⟨?_, rfl, rfl, rfl, rfl, ?_⟩
  · rw [handler_reaches_upload C req env parts fp hct hb hp hf hx hm hcn hcr, hu]
  · intro p hpmem hpfile hpname
    rw [objGet_collectFields C.dec parts p.name hpname]
    have hpred : bindsKey p.name p = true := by simp [bindsKey, hpfile]
    have hmemrev : p ∈ parts.reverse := List.mem_reverse.mpr hpmem
    have hsome : (parts.reverse.find? (bindsKey p.name)).isSome :=
      List.find?_isSome.mpr ⟨p, hmemrev, hpred⟩
    obtain ⟨q, hq⟩ := Option.isSome_iff_exists.mp hsome
    have hqpred := List.find?_some hq
    have hqmem : q ∈ parts := List.mem_reverse.mp (List.mem_of_find?_eq_some hq)
    rw [bindsKey, Bool.and_eq_true] at hqpred
    have hqfile : q.filename = "" := eq_of_beq hqpred.1
    have hqname : q.name = p.name := eq_of_beq hqpred.2
    have hpin : p ∈ parts.filter (fun r => r.filename == "" && r.name != "") :=
      List.mem_filter.mpr ⟨hpmem, by simp [hpfile, hpname]⟩
    have hqin : q ∈ parts.filter (fun r => r.filename == "" && r.name != "") :=
      List.mem_filter.mpr ⟨hqmem, by simp [hqfile, hqname, hpname]⟩
    have hqp : q = p := List.inj_on_of_nodup_map hnd hqin hpin hqname
    rw [hq, hqp]
    rfl

/-- Witness for C1: the fully valid run issues one upload call with the
file bytes and echoes every submitted field verbatim. -/
theorem c1_valid_upload_roundtrip_witness :
    handler wCollab wReq wEnv = (successResponse wCollab wEnv wParts wFile,
      [uploadCallOf wCollab wEnv wParts wFile]) ∧
    (uploadCallOf wCollab wEnv wParts wFile).data = [80, 75, 3, 4] ∧
    objGet (collectFields wCollab.dec wParts) "company" = some "Acme" := by
  have h := c1_valid_upload_roundtrip wCollab wReq wEnv wParts wFile
    rfl (by decide) rfl (by decide) (by decide) (by decide) rfl rfl rfl (by decide)
  refine ⟨h.1, h.2.1, ?_⟩
  have hc := h.2.2.2.2.2 (wField "company" "Acme") (by decide) rfl (by decide)
  exact hc.trans (by decide)

/-- C4: the generated storage key embeds the sanitized ISO reading, so
two otherwise identical valid runs whose wall-clock ISO readings differ
each issue one upload call and the two generated keys differ — no
overwrite, hence no idempotence. -/
theorem c4_distinct_keys (C : Collab) (req : Request) (env1 env2 : Env)
    (parts : List Part) (fp : Part)
    (hct : truthyOpt (jsOr req.ctLower req.ctUpper) = true)
    (hb : C.gb (optStr (jsOr req.ctLower req.ctUpper)) ≠ "")
    (hp : C.parseParts req.body (C.gb (optStr (jsOr req.ctLower req.ctUpper))) =
      Except.ok parts)
    (hf : selectFilePart parts = some fp)
    (hx : isExcelFile fp.filename = true)
    (hm : requiredFields.filter (isBlankField (collectFields C.dec parts)) = [])
    (hcn1 : truthyOpt (if truthyOpt env1.envConn then env1.envConn else env1.localConn) = true)
    (hcn2 : truthyOpt (if truthyOpt env2.envConn then env2.envConn else env2.localConn) = true)
    (hcr : C.createRes = Except.ok ())
    (hiso1 : isIsoTimestamp env1.nowKey = true)
    (hiso2 : isIsoTimestamp env2.nowKey = true)
    (hne : env1.nowKey ≠ env2.nowKey) :
    (handler C req env1).2 = [uploadCallOf C env1 parts fp] ∧
    (handler C req env2).2 = [uploadCallOf C env2 parts fp] ∧
    (uploadCallOf C env1 parts fp).blobName ≠ (uploadCallOf C env2 parts fp).blobName := by
  refine ⟨?_, ?_, ?_⟩
  · rw [handler_reaches_upload C req env1 parts fp hct hb hp hf hx hm hcn1 hcr]
    cases hres : C.uploadRes <;> simp [hres]
  · rw [handler_reaches_upload C req env2 parts fp hct hb hp hf hx hm hcn2 hcr]
    cases hres : C.uploadRes <;> simp [hres]
  · intro heq
    have heq' : uniqueFilename (optStr (objGet (collectFields C.dec parts) "company"))
        env1.nowKey (fileExtOf fp.filename) =
        uniqueFilename (optStr (objGet (collectFields C.dec parts) "company"))
        env2.nowKey (fileExtOf fp.filename) := heq
    exact hne (uniqueFilename_inj _ _ _ _ hiso1 hiso2 heq')

/-- Witness for C4: the two concrete runs generate different blob keys. -/
theorem c4_distinct_keys_witness :
    (handler wCollab wReq wEnv).2 = [uploadCallOf wCollab wEnv wParts wFile] ∧
    (handler wCollab wReq w4Env).2 = [uploadCallOf wCollab w4Env wParts wFile] ∧
    (uploadCallOf wCollab wEnv wParts wFile).blobName ≠
      (uploadCallOf wCollab w4Env wParts wFile).blobName :=
  c4_distinct_keys wCollab wReq wEnv w4Env wParts wFile
    rfl (by decide) rfl (by decide) (by decide) (by decide) rfl rfl rfl
    (by decide) (by decide) (by decide)

/-- C10: the metadata mapping binds a key only for parts with no filename
and a non-empty name — at any non-empty key it holds the decoded payload
of the last such part carrying that name (so a later duplicate overwrites
an earlier one), a nameless part contributes nothing, and the empty key
is never bound. -/
theorem c10_fields_collection (dec : List Nat → String) (parts : List Part) :
    (∀ k, k ≠ "" → objGet (collectFields dec parts) k =
      (parts.reverse.find? (bindsKey k)).map fun p => dec p.data) ∧
    objGet (collectFields dec parts) "" = none ∧
    ∀ p : Part, p.filename = "" → p.name ≠ "" →
      objGet (collectFields dec (parts ++ [p])) p.name = some (dec p.data) := by
  refine ⟨fun k hk => objGet_collectFields dec parts k hk,
    objGet_collectFields_empty dec parts, ?_⟩
  intro p hpf hpn
  rw [objGet_collectFields dec (parts ++ [p]) p.name hpn]
  have hrev : (parts ++ [p]).reverse = p :: parts.reverse := by simp
  have hpred : bindsKey p.name p = true := by simp [bindsKey, hpf]
  rw [hrev]
  simp [List.find?_cons, hpred]

/-- Witness for C10: the later duplicate wins, the nameless part binds
nothing, and appending a still-later duplicate overwrites again. -/
theorem c10_fields_collection_witness :
    objGet (collectFields wDec w10Parts) "k" = some "second" ∧
    objGet (collectFields wDec w10Parts) "" = none ∧
    objGet (collectFields wDec (w10Parts ++ [wField "k" "third"])) "k" = some "third" := by
  have h := c10_fields_collection wDec w10Parts
  refine ⟨(h.1 "k" (by decide)).trans (by decide), h.2.1, ?_⟩
  exact (h.2.2 (wField "k" "third") rfl (by decide)).trans (by decide)

end Storage
